import Mathlib

/-!
Verification of the open-enumeration value holder of src/prost/src/open_enum.rs.

The holder is generic over a symbolic type T that converts to a canonical
32-bit signed integer code (total) and back (partial).  In the Rust source
these capabilities are the trait bounds T : Into of i32, i32 : TryInto of T,
and T : Default; here they become an explicit capability record EnumCodec and
an explicit default value passed where the source requires T : Default.
Machine integers i32 are embedded as Int, with range side conditions made
explicit where they matter.
-/

/-- Capability record for the symbolic type T: the total mapping from a
variant to its canonical 32-bit code (the Into of i32 bound in the source)
and the partial mapping from a code back to a variant (the TryInto bound). -/
structure EnumCodec (T : Type) where
  toCode : T → Int
  tryFromCode : Int → Option T

/-- The open enumeration holder, from open_enum.rs lines 8-12: either a
recognized symbolic variant or the raw unrecognized wire integer. -/
inductive OpenEnum (T : Type) where
  | Known : T → OpenEnum T
  | Unknown : Int → OpenEnum T
deriving DecidableEq

/-- Default impl, open_enum.rs lines 14-21: unconditionally
Known of the default value of T. -/
def OpenEnum.default {T : Type} (d : T) : OpenEnum T :=
  OpenEnum.Known d

/-- From impl, open_enum.rs lines 23-27: wrap a known value. -/
def OpenEnum.fromValue {T : Type} (value : T) : OpenEnum T :=
  OpenEnum.Known value

/-- from_raw, open_enum.rs lines 30-38: apply the partial code-to-variant
mapping; Known on success, Unknown carrying the raw integer on failure. -/
def OpenEnum.from_raw {T : Type} (c : EnumCodec T) (value : Int) : OpenEnum T :=
  match c.tryFromCode value with
  | some v => OpenEnum.Known v
  | none => OpenEnum.Unknown value

/-- into_raw, open_enum.rs lines 40-48: consuming conversion to the raw
integer. -/
def OpenEnum.into_raw {T : Type} (c : EnumCodec T) : OpenEnum T → Int
  | OpenEnum.Known v => c.toCode v
  | OpenEnum.Unknown v => v

/-- to_raw, open_enum.rs lines 50-58: borrowing conversion to the raw
integer; same mapping as into_raw. -/
def OpenEnum.to_raw {T : Type} (c : EnumCodec T) : OpenEnum T → Int
  | OpenEnum.Known v => c.toCode v
  | OpenEnum.Unknown v => v

/-- unwrap, open_enum.rs lines 62-67.  The Rust panic on Unknown is embedded
as the error branch of Except, carrying the formatted panic message. -/
def OpenEnum.unwrap {T : Type} : OpenEnum T → Except String T
  | OpenEnum.Known v => Except.ok v
  | OpenEnum.Unknown v => Except.error ("unknown field value " ++ toString v)

/-- unwrap_or, open_enum.rs lines 69-74. -/
def OpenEnum.unwrap_or {T : Type} (self : OpenEnum T) (dflt : T) : T :=
  match self with
  | OpenEnum.Known v => v
  | OpenEnum.Unknown _ => dflt

/-- unwrap_or_else, open_enum.rs lines 76-84. -/
def OpenEnum.unwrap_or_else {T : Type} (self : OpenEnum T) (f : Int → T) : T :=
  match self with
  | OpenEnum.Known v => v
  | OpenEnum.Unknown v => f v

/-- unwrap_or_default, open_enum.rs lines 86-94; the default value of T is
passed explicitly in place of the T : Default bound. -/
def OpenEnum.unwrap_or_default {T : Type} (self : OpenEnum T) (d : T) : T :=
  match self with
  | OpenEnum.Known v => v
  | OpenEnum.Unknown _ => d

/-- known, open_enum.rs lines 96-101. -/
def OpenEnum.known {T : Type} : OpenEnum T → Option T
  | OpenEnum.Known v => some v
  | OpenEnum.Unknown _ => none

/-- known_or, open_enum.rs lines 103-108. -/
def OpenEnum.known_or {T E : Type} (self : OpenEnum T) (err : E) : Except E T :=
  match self with
  | OpenEnum.Known v => Except.ok v
  | OpenEnum.Unknown _ => Except.error err

/-- known_or_else, open_enum.rs lines 110-118. -/
def OpenEnum.known_or_else {T E : Type} (self : OpenEnum T) (err : Int → E) : Except E T :=
  match self with
  | OpenEnum.Known v => Except.ok v
  | OpenEnum.Unknown v => Except.error (err v)

/-- Coherence of the two mappings at one holder value: a Known variant is
reproduced by the partial mapping from its own code, and the integer inside
Unknown is genuinely unmapped.  These are the data-model invariants the
specification imposes on collaborator types. -/
def WellFormedOE {T : Type} (c : EnumCodec T) : OpenEnum T → Prop
  | OpenEnum.Known v => c.tryFromCode (c.toCode v) = some v
  | OpenEnum.Unknown r => c.tryFromCode r = none

instance {T : Type} [DecidableEq T] (c : EnumCodec T) (e : OpenEnum T) :
    Decidable (WellFormedOE c e) :=
  match e with
  | OpenEnum.Known v =>
      inferInstanceAs (Decidable (c.tryFromCode (c.toCode v) = some v))
  | OpenEnum.Unknown r =>
      inferInstanceAs (Decidable (c.tryFromCode r = none))

/-- A small concrete symbolic enumeration used to instantiate the generic
theorems: three variants with codes 0, 2 and 5. -/
inductive TestColor where
  | red
  | green
  | blue
deriving DecidableEq

/-- Codec for TestColor: red maps to 0, green to 2, blue to 5; every other
integer is unmapped. -/
def testCodec : EnumCodec TestColor where
  toCode := fun v =>
    match v with
    | TestColor.red => 0
    | TestColor.green => 2
    | TestColor.blue => 5
  tryFromCode := fun r =>
    if r = 0 then some TestColor.red
    else if r = 2 then some TestColor.green
    else if r = 5 then some TestColor.blue
    else none

/-- A one-variant symbolic enumeration whose sole variant carries code 5, so
that the wire integer 0 maps to no variant.  Used to separate default
construction from from_raw at 0. -/
inductive ShiftedVariant where
  | one
deriving DecidableEq

/-- Codec for ShiftedVariant: the sole variant has code 5; 0 is unmapped. -/
def shiftedCodec : EnumCodec ShiftedVariant where
  toCode := fun _ => 5
  tryFromCode := fun r => if r = 5 then some ShiftedVariant.one else none

/-- Helper shape lemma: from_raw at an unmapped integer yields Unknown. -/
theorem from_raw_of_none {T : Type} (c : EnumCodec T) (r : Int)
    (h : c.tryFromCode r = none) :
    OpenEnum.from_raw c r = OpenEnum.Unknown r := by
  simp [OpenEnum.from_raw, h]

/-- Helper shape lemma: from_raw at a mapped integer yields Known. -/
theorem from_raw_of_some {T : Type} (c : EnumCodec T) (r : Int) (v : T)
    (h : c.tryFromCode r = some v) :
    OpenEnum.from_raw c r = OpenEnum.Known v := by
  simp [OpenEnum.from_raw, h]

/-- C2 counterexample: for the symbolic type ShiftedVariant, whose default
variant carries code 5 and for which 0 is unmapped, the default constructor
yields Known while from_raw 0 yields Unknown 0, so the two differ. -/
theorem default_vs_from_raw_counterexample :
    OpenEnum.default ShiftedVariant.one ≠ OpenEnum.from_raw shiftedCodec 0 := by
  decide

/-- C2 (amended): the default constructor always produces Known of the
default variant of T; it coincides with from_raw 0 precisely when the
partial integer-to-variant mapping sends 0 to that default variant. -/
theorem default_eq_from_raw_iff {T : Type} (c : EnumCodec T) (d : T) :
    OpenEnum.default d = OpenEnum.Known d ∧
    (OpenEnum.default d = OpenEnum.from_raw c 0 ↔ c.tryFromCode 0 = some d) := by
  refine ⟨rfl, ?_⟩
  unfold OpenEnum.default OpenEnum.from_raw
  cases h : c.tryFromCode 0 with
  | none => simp
  | some v =>
      simp only [OpenEnum.Known.injEq, Option.some.injEq]
      exact ⟨fun hdv => hdv ▸ rfl, fun hvd => hvd ▸ rfl⟩

/-- C3: for every symbolic variant v of T, under the round-trip law that the
partial integer-to-variant mapping inverts the code of v, converting
Known v to raw and back reproduces Known v. -/
theorem from_raw_to_raw_known {T : Type} (c : EnumCodec T) (v : T)
    (h : c.tryFromCode (c.toCode v) = some v) :
    OpenEnum.from_raw c (OpenEnum.to_raw c (OpenEnum.Known v)) = OpenEnum.Known v := by
  simp [OpenEnum.to_raw, OpenEnum.from_raw, h]

/-- C3 witness: instantiated at TestColor.green, whose code is 2. -/
theorem from_raw_to_raw_known_witness :
    OpenEnum.from_raw testCodec (OpenEnum.to_raw testCodec (OpenEnum.Known TestColor.green))
      = OpenEnum.Known TestColor.green :=
  from_raw_to_raw_known testCodec TestColor.green (by decide)

/-- C4: for every integer r on which the partial integer-to-variant mapping
fails, from_raw r is Unknown r, and to_raw of Unknown r is r unchanged. -/
theorem round_trip_unknown {T : Type} (c : EnumCodec T) (r : Int)
    (h : c.tryFromCode r = none) :
    OpenEnum.from_raw c r = OpenEnum.Unknown r ∧
    OpenEnum.to_raw c (OpenEnum.Unknown r) = r := by
  exact ⟨by simp [OpenEnum.from_raw, h], rfl⟩

/-- C4 witness: instantiated at the unmapped integer 999 of TestColor. -/
theorem round_trip_unknown_witness :
    OpenEnum.from_raw testCodec 999 = OpenEnum.Unknown 999 ∧
    OpenEnum.to_raw testCodec (OpenEnum.Unknown 999) = 999 :=
  round_trip_unknown testCodec 999 (by decide)

/-- C5: each non-fatal extraction operation returns the wrapped value on
Known v, and exactly its documented fallback on Unknown r: the supplied
default, f r, the default of T, none, the fixed error, or the error built
from r. -/
theorem extraction_correct {T E : Type} (v : T) (r : Int) (d : T)
    (f : Int → T) (dd : T) (e : E) (g : Int → E) :
    OpenEnum.unwrap_or (OpenEnum.Known v) d = v ∧
    OpenEnum.unwrap_or (OpenEnum.Unknown r) d = d ∧
    OpenEnum.unwrap_or_else (OpenEnum.Known v) f = v ∧
    OpenEnum.unwrap_or_else (OpenEnum.Unknown r) f = f r ∧
    OpenEnum.unwrap_or_default (OpenEnum.Known v) dd = v ∧
    OpenEnum.unwrap_or_default (OpenEnum.Unknown r) dd = dd ∧
    OpenEnum.known (OpenEnum.Known v) = some v ∧
    OpenEnum.known (OpenEnum.Unknown r : OpenEnum T) = none ∧
    OpenEnum.known_or (OpenEnum.Known v) e = Except.ok v ∧
    OpenEnum.known_or (OpenEnum.Unknown r : OpenEnum T) e = Except.error e ∧
    OpenEnum.known_or_else (OpenEnum.Known v) g = Except.ok v ∧
    OpenEnum.known_or_else (OpenEnum.Unknown r : OpenEnum T) g = Except.error (g r) :=
  ⟨rfl, rfl, rfl, rfl, rfl, rfl, rfl, rfl, rfl, rfl, rfl, rfl⟩

/-- C9: unwrap returns the wrapped value on Known, and on Unknown r it takes
the abnormal-termination branch, embedded here as the Except error carrying
the panic diagnostic, which reports the unrecognized integer r; in
particular Unknown 42 reports 42. -/
theorem unwrap_contract {T : Type} (v : T) (r : Int) :
    OpenEnum.unwrap (OpenEnum.Known v) = Except.ok v ∧
    OpenEnum.unwrap (OpenEnum.Unknown r : OpenEnum T)
      = Except.error ("unknown field value " ++ toString r) ∧
    OpenEnum.unwrap (OpenEnum.Unknown 42 : OpenEnum T)
      = Except.error "unknown field value 42" :=
  ⟨rfl, rfl, congrArg Except.error (by decide)⟩

/-- Modelled from the spec: the wire-type tags of the surrounding message
framework (crate encoding, not under src/); the holder only uses the varint
wire type and rejects the others. -/
inductive WireType where
  | Varint
  | SixtyFourBit
  | LengthDelimited
  | StartGroup
  | EndGroup
  | ThirtyTwoBit
deriving DecidableEq

/-- Modelled from the spec: the decode-error type of the surrounding message
framework (crate DecodeError, not under src/), carrying a description. -/
structure DecodeError where
  description : String
deriving DecidableEq

/-- Modelled from the spec: one step per byte of base-128 varint encoding,
with fuel bounding the output at the 10 bytes a 64-bit value needs. -/
def encodeVarintAux : Nat → Nat → List Nat
  | 0, _ => []
  | fuel + 1, n =>
      if n < 128 then [n]
      else (n % 128 + 128) :: encodeVarintAux fuel (n / 128)

/-- Modelled from the spec: base-128 variable-length encoding of a 64-bit
value, least-significant group first, high bit marking continuation. -/
def encodeVarint (n : Nat) : List Nat :=
  encodeVarintAux 10 n

/-- Modelled from the spec: base-128 varint decoding, reading at most 10
bytes; an empty buffer mid-varint is a truncation error and an overlong
varint is invalid; the accumulated value is truncated to 64 bits. -/
def decodeVarintAux : Nat → Nat → Nat → List Nat → Except DecodeError (Nat × List Nat)
  | 0, _, _, _ => Except.error (DecodeError.mk "invalid varint")
  | _ + 1, _, _, [] => Except.error (DecodeError.mk "buffer underflow")
  | fuel + 1, shift, acc, b :: rest =>
      if b < 128 then Except.ok ((acc + b * 2 ^ shift) % 2 ^ 64, rest)
      else decodeVarintAux fuel (shift + 7) (acc + b % 128 * 2 ^ shift) rest

/-- Modelled from the spec: decode one varint from the front of the buffer,
returning the decoded 64-bit value and the remaining bytes. -/
def decodeVarint (buf : List Nat) : Except DecodeError (Nat × List Nat) :=
  decodeVarintAux 10 0 0 buf

/-- Modelled from the spec: the two-complement value of a signed 32-bit
integer zero/sign-extended to 64 bits, as the spec prescribes before varint
encoding. -/
def toU64 (i : Int) : Nat :=
  (i % 2 ^ 64).toNat

/-- Modelled from the spec: reinterpret the low 32 bits of a decoded 64-bit
varint value as a two-complement signed 32-bit integer. -/
def i32OfU64 (n : Nat) : Int :=
  if n % 2 ^ 32 < 2 ^ 31 then ((n % 2 ^ 32 : Nat) : Int)
  else ((n % 2 ^ 32 : Nat) : Int) - 2 ^ 32

/-- Modelled from the spec: the generic primitive of the surrounding message
framework (the i32 Message impl, not under src/) that decodes one scalar
signed 32-bit integer field given tag, wire type, buffer and context: it
enforces the varint wire type, reads one varint, and reinterprets its low
32 bits; any underlying error is surfaced unchanged. -/
def int32MergeField (_tag : Nat) (wire_type : WireType) (buf : List Nat) :
    Except DecodeError (Int × List Nat) :=
  match wire_type with
  | WireType.Varint =>
      match decodeVarint buf with
      | Except.ok (n, rest) => Except.ok (i32OfU64 n, rest)
      | Except.error e => Except.error e
  | _ => Except.error (DecodeError.mk "invalid wire type")

/-- Modelled from the spec: the generic encode primitive of the surrounding
message framework for a signed 32-bit integer: the bare varint of the value
sign-extended to 64 bits, with no field framing at this layer. -/
def int32EncodeRaw (value : Int) : List Nat :=
  encodeVarint (toU64 value)

/-- encode_raw, open_enum.rs lines 130-132: encode the raw integer obtained
by to_raw with the framework primitive for signed 32-bit integers. -/
def OpenEnum.encode_raw {T : Type} (c : EnumCodec T) (self : OpenEnum T) : List Nat :=
  int32EncodeRaw (OpenEnum.to_raw c self)

/-- merge_field, open_enum.rs lines 134-145: delegate to the framework
primitive for one signed 32-bit integer field; on success replace the whole
value with from_raw of the decoded integer, on error return early with the
error and leave the value untouched.  The Rust in-place mutation is embedded
as state passing: the result pairs the new holder value with the outcome,
which carries the remaining buffer on success. -/
def OpenEnum.merge_field {T : Type} (c : EnumCodec T) (self : OpenEnum T)
    (tag : Nat) (wire_type : WireType) (buf : List Nat) :
    OpenEnum T × Except DecodeError (List Nat) :=
  match int32MergeField tag wire_type buf with
  | Except.ok (raw, rest) => (OpenEnum.from_raw c raw, Except.ok rest)
  | Except.error e => (self, Except.error e)

/-- clear, open_enum.rs lines 147-149: reset the value to from_raw 0,
whatever it was before. -/
def OpenEnum.clear {T : Type} (c : EnumCodec T) (_self : OpenEnum T) : OpenEnum T :=
  OpenEnum.from_raw c 0

/-- Varint round trip, generalized over fuel, accumulator and shift: decoding
the encoding of n on top of an accumulated prefix yields the combined value
and consumes the whole buffer, provided n fits the remaining fuel and the
combined value fits 64 bits. -/
theorem varint_round_trip_aux (f : Nat) :
    ∀ (n shift acc : Nat), n < 128 ^ (f + 1) →
      acc + n * 2 ^ shift < 2 ^ 64 →
      decodeVarintAux (f + 1) shift acc (encodeVarintAux (f + 1) n)
        = Except.ok (acc + n * 2 ^ shift, []) := by
  induction f with
  | zero =>
      intro n shift acc hn hlt
      have h128 : n < 128 := by simpa using hn
      have henc : encodeVarintAux (0 + 1) n
          = if n < 128 then [n]
            else (n % 128 + 128) :: encodeVarintAux 0 (n / 128) := rfl
      have hdec : decodeVarintAux (0 + 1) shift acc [n]
          = if n < 128 then
              Except.ok ((acc + n * 2 ^ shift) % 2 ^ 64, ([] : List Nat))
            else decodeVarintAux 0 (shift + 7) (acc + n % 128 * 2 ^ shift) [] := rfl
      rw [henc, if_pos h128, hdec, if_pos h128, Nat.mod_eq_of_lt hlt]
  | succ f ih =>
      intro n shift acc hn hlt
      by_cases h : n < 128
      · have henc : encodeVarintAux (f + 1 + 1) n
            = if n < 128 then [n]
              else (n % 128 + 128) :: encodeVarintAux (f + 1) (n / 128) := rfl
        have hdec : decodeVarintAux (f + 1 + 1) shift acc [n]
            = if n < 128 then
                Except.ok ((acc + n * 2 ^ shift) % 2 ^ 64, ([] : List Nat))
              else decodeVarintAux (f + 1) (shift + 7)
                (acc + n % 128 * 2 ^ shift) [] := rfl
        rw [henc, if_pos h, hdec, if_pos h, Nat.mod_eq_of_lt hlt]
      · have hb : ¬ n % 128 + 128 < 128 := by omega
        have hbmod : (n % 128 + 128) % 128 = n % 128 := by omega
        have hkey : acc + n % 128 * 2 ^ shift + n / 128 * 2 ^ (shift + 7)
            = acc + n * 2 ^ shift := by
          have hpow : (2 : Nat) ^ (shift + 7) = 2 ^ shift * 128 := by
            rw [pow_add]; norm_num
          have hsplit : n % 128 + 128 * (n / 128) = n := Nat.mod_add_div n 128
          calc acc + n % 128 * 2 ^ shift + n / 128 * 2 ^ (shift + 7)
              = acc + (n % 128 + 128 * (n / 128)) * 2 ^ shift := by rw [hpow]; ring
            _ = acc + n * 2 ^ shift := by rw [hsplit]
        have hdiv : n / 128 < 128 ^ (f + 1) := by
          rw [Nat.div_lt_iff_lt_mul (by norm_num : 0 < 128)]
          calc n < 128 ^ (f + 1 + 1) := hn
            _ = 128 ^ (f + 1) * 128 := by rw [pow_succ]
        have hlt2 : acc + n % 128 * 2 ^ shift + n / 128 * 2 ^ (shift + 7) < 2 ^ 64 := by
          rw [hkey]; exact hlt
        have hih := ih (n / 128) (shift + 7) (acc + n % 128 * 2 ^ shift) hdiv hlt2
        have henc : encodeVarintAux (f + 1 + 1) n
            = if n < 128 then [n]
              else (n % 128 + 128) :: encodeVarintAux (f + 1) (n / 128) := rfl
        rw [henc, if_neg h]
        have hdec : decodeVarintAux (f + 1 + 1) shift acc
              ((n % 128 + 128) :: encodeVarintAux (f + 1) (n / 128))
            = if n % 128 + 128 < 128 then
                Except.ok ((acc + (n % 128 + 128) * 2 ^ shift) % 2 ^ 64,
                  encodeVarintAux (f + 1) (n / 128))
              else decodeVarintAux (f + 1) (shift + 7)
                (acc + (n % 128 + 128) % 128 * 2 ^ shift)
                (encodeVarintAux (f + 1) (n / 128)) := rfl
        rw [hdec, if_neg hb, hbmod, hih, hkey]

/-- Varint round trip at the top level: for every 64-bit value the decoder
inverts the encoder and consumes the buffer exactly. -/
theorem decodeVarint_encodeVarint (n : Nat) (hn : n < 2 ^ 64) :
    decodeVarint (encodeVarint n) = Except.ok (n, []) := by
  have hb : n < 128 ^ 10 := lt_of_lt_of_le hn (by norm_num)
  have hlt : 0 + n * 2 ^ 0 < 2 ^ 64 := by simpa using hn
  have h := varint_round_trip_aux 9 n 0 0 hb hlt
  simpa [decodeVarint, encodeVarint] using h

/-- The 64-bit extension of any integer is a 64-bit value. -/
theorem toU64_lt (i : Int) : toU64 i < 2 ^ 64 := by
  unfold toU64
  have e64 : (2:Int) ^ 64 = 18446744073709551616 := by norm_num
  have e64n : (2:Nat) ^ 64 = 18446744073709551616 := by norm_num
  rw [e64, e64n]
  omega

/-- Sign extension to 64 bits followed by reinterpretation of the low 32
bits is the identity on the signed 32-bit range. -/
theorem i32OfU64_toU64 (i : Int) (h1 : -(2 ^ 31) ≤ i) (h2 : i < 2 ^ 31) :
    i32OfU64 (toU64 i) = i := by
  have e31 : (2:Int) ^ 31 = 2147483648 := by norm_num
  rw [e31] at h1 h2
  unfold i32OfU64 toU64
  have e64 : (2:Int) ^ 64 = 18446744073709551616 := by norm_num
  have e32n : (2:Nat) ^ 32 = 4294967296 := by norm_num
  have e31n : (2:Nat) ^ 31 = 2147483648 := by norm_num
  have e32 : (2:Int) ^ 32 = 4294967296 := by norm_num
  rw [e64, e32n, e31n, e32]
  split <;> omega

/-- The framework primitive inverts the framework encoder on the signed
32-bit range, consuming the produced bytes exactly. -/
theorem int32_round_trip (i : Int) (h1 : -(2 ^ 31) ≤ i) (h2 : i < 2 ^ 31) (tag : Nat) :
    int32MergeField tag WireType.Varint (int32EncodeRaw i) = Except.ok (i, []) := by
  have hd : decodeVarint (int32EncodeRaw i) = Except.ok (toU64 i, []) :=
    decodeVarint_encodeVarint (toU64 i) (toU64_lt i)
  unfold int32MergeField
  rw [hd]
  show Except.ok (i32OfU64 (toU64 i), ([] : List Nat)) = Except.ok (i, [])
  rw [i32OfU64_toU64 i h1 h2]

/-- C1: for every coherent holder value within the signed 32-bit range,
encoding with encode_raw and decoding the produced bytes with merge_field
(from any starting state, at the varint wire type) reproduces that value
and consumes the buffer. -/
theorem wire_round_trip {T : Type} (c : EnumCodec T) (s e : OpenEnum T) (tag : Nat)
    (hwf : WellFormedOE c e)
    (h1 : -(2 ^ 31) ≤ OpenEnum.to_raw c e) (h2 : OpenEnum.to_raw c e < 2 ^ 31) :
    OpenEnum.merge_field c s tag WireType.Varint (OpenEnum.encode_raw c e)
      = (e, Except.ok []) := by
  have hmf := int32_round_trip (OpenEnum.to_raw c e) h1 h2 tag
  unfold OpenEnum.merge_field OpenEnum.encode_raw
  rw [hmf]
  show (OpenEnum.from_raw c (OpenEnum.to_raw c e), Except.ok ([] : List Nat))
    = (e, Except.ok [])
  cases e with
  | Known v =>
      have hv : c.tryFromCode (c.toCode v) = some v := hwf
      rw [show OpenEnum.to_raw c (OpenEnum.Known v) = c.toCode v from rfl,
        from_raw_of_some c (c.toCode v) v hv]
  | Unknown r =>
      have hr : c.tryFromCode r = none := hwf
      rw [show OpenEnum.to_raw c (OpenEnum.Unknown r) = r from rfl,
        from_raw_of_none c r hr]

/-- C1 witness: Known green (code 2) and Unknown 999 both survive the
encode-then-decode round trip for the TestColor codec. -/
theorem wire_round_trip_witness :
    OpenEnum.merge_field testCodec (OpenEnum.Unknown 0) 1 WireType.Varint
        (OpenEnum.encode_raw testCodec (OpenEnum.Known TestColor.green))
      = (OpenEnum.Known TestColor.green, Except.ok [])
    ∧ OpenEnum.merge_field testCodec (OpenEnum.Known TestColor.red) 1 WireType.Varint
        (OpenEnum.encode_raw testCodec (OpenEnum.Unknown 999))
      = (OpenEnum.Unknown 999, Except.ok []) :=
  ⟨wire_round_trip testCodec (OpenEnum.Unknown 0) (OpenEnum.Known TestColor.green) 1
      (by decide) (by decide) (by decide),
    wire_round_trip testCodec (OpenEnum.Known TestColor.red) (OpenEnum.Unknown 999) 1
      (by decide) (by decide) (by decide)⟩

/-- C6: whenever two successive occurrences of the field decode
successfully, the holder afterwards equals from_raw of the second decoded
integer; neither the prior value nor the first occurrence influences the
result. -/
theorem merge_last_write_wins {T : Type} (c : EnumCodec T) (e : OpenEnum T)
    (tag1 tag2 : Nat) (wt1 wt2 : WireType) (buf1 buf2 : List Nat)
    (raw1 : Int) (rest1 : List Nat) (raw2 : Int) (rest2 : List Nat)
    (h1 : int32MergeField tag1 wt1 buf1 = Except.ok (raw1, rest1))
    (h2 : int32MergeField tag2 wt2 buf2 = Except.ok (raw2, rest2)) :
    OpenEnum.merge_field c (OpenEnum.merge_field c e tag1 wt1 buf1).1 tag2 wt2 buf2
      = (OpenEnum.from_raw c raw2, Except.ok rest2) := by
  unfold OpenEnum.merge_field
  rw [h1, h2]

/-- C6 witness: starting from Known red, merging the varint 2 and then the
varint 999 leaves the holder at from_raw 999. -/
theorem merge_last_write_wins_witness :
    OpenEnum.merge_field testCodec
        (OpenEnum.merge_field testCodec (OpenEnum.Known TestColor.red)
          1 WireType.Varint [2]).1
        1 WireType.Varint [231, 7]
      = (OpenEnum.from_raw testCodec 999, Except.ok []) :=
  merge_last_write_wins testCodec (OpenEnum.Known TestColor.red) 1 1
    WireType.Varint WireType.Varint [2] [231, 7] 2 [] 999 [] rfl rfl

/-- C7: clear is idempotent and always yields from_raw 0, whatever the
prior value was. -/
theorem clear_idempotent {T : Type} (c : EnumCodec T) (e : OpenEnum T) :
    OpenEnum.clear c (OpenEnum.clear c e) = OpenEnum.clear c e
    ∧ OpenEnum.clear c e = OpenEnum.from_raw c 0 :=
  ⟨rfl, rfl⟩

/-- C8: merge_field surfaces every error of the underlying integer decode
unchanged and adds no error of its own: on an underlying error the outcome
is exactly that error, and on every successful underlying decode the merge
succeeds, whether or not the integer is recognized. -/
theorem merge_error_propagation {T : Type} (c : EnumCodec T) (s : OpenEnum T)
    (tag : Nat) (wt : WireType) (buf : List Nat) :
    (∀ err : DecodeError, int32MergeField tag wt buf = Except.error err →
        OpenEnum.merge_field c s tag wt buf = (s, Except.error err))
    ∧ ∀ (raw : Int) (rest : List Nat),
        int32MergeField tag wt buf = Except.ok (raw, rest) →
        OpenEnum.merge_field c s tag wt buf
          = (OpenEnum.from_raw c raw, Except.ok rest) := by
  constructor
  · intro err h
    unfold OpenEnum.merge_field
    rw [h]
  · intro raw rest h
    unfold OpenEnum.merge_field
    rw [h]

/-- C8 witness: an empty buffer propagates the underflow error of the
underlying varint read, and the well-formed but unrecognized integer 999
decodes without error. -/
theorem merge_error_propagation_witness :
    OpenEnum.merge_field testCodec (OpenEnum.Known TestColor.red) 1 WireType.Varint []
      = (OpenEnum.Known TestColor.red,
          Except.error (DecodeError.mk "buffer underflow"))
    ∧ OpenEnum.merge_field testCodec (OpenEnum.Known TestColor.red) 1 WireType.Varint
        [231, 7]
      = (OpenEnum.from_raw testCodec 999, Except.ok []) :=
  ⟨(merge_error_propagation testCodec (OpenEnum.Known TestColor.red)
      1 WireType.Varint []).1 (DecodeError.mk "buffer underflow") rfl,
    (merge_error_propagation testCodec (OpenEnum.Known TestColor.red)
      1 WireType.Varint [231, 7]).2 999 [] rfl⟩

/-- C10: when the underlying integer decode inside merge_field fails, the
holder value is left exactly as it was before the call. -/
theorem merge_atomic_on_error {T : Type} (c : EnumCodec T) (s : OpenEnum T)
    (tag : Nat) (wt : WireType) (buf : List Nat) (err : DecodeError)
    (h : int32MergeField tag wt buf = Except.error err) :
    (OpenEnum.merge_field c s tag wt buf).1 = s := by
  unfold OpenEnum.merge_field
  rw [h]

/-- C10 witness: a truncated varint leaves the prior value Unknown 7 in
place. -/
theorem merge_atomic_on_error_witness :
    (OpenEnum.merge_field testCodec (OpenEnum.Unknown 7) 3 WireType.Varint [128]).1
      = OpenEnum.Unknown 7 :=
  merge_atomic_on_error testCodec (OpenEnum.Unknown 7) 3 WireType.Varint [128]
    (DecodeError.mk "buffer underflow") rfl
